import Mathlib

/-!
Shallow embedding of the Tensaero simulation core (src/src/Tensaero) and
proofs about the behaviour of its operations.

Numeric data carried by vectors and matrices is modelled over a generic
linear ordered field `K` (instantiated at `ℚ` for concrete evaluations and
at `ℝ` where transcendental functions matter); Python floats are idealised
as exact field elements.  Fallible Python code (functions that can raise)
is modelled with `Except SimError`.
-/

namespace Tensaero

/-- Embeds `CoordinateSystems` from `Core/State.py` (members `Cartesian`,
`Spherical`, `WGS84` with values 0, 1, 2). -/
inductive CoordinateSystems where
  | Cartesian
  | Spherical
  | WGS84
  deriving DecidableEq, Fintype

/-- Embeds `ReferenceFrames` from `Core/State.py`: the enum declares exactly
the members `EarthCenteredInertial = 0`, `EarthCenteredEarthFixed = 1`,
`Geographic = 2`, `Body = 3`, `Wind = 4`, `FlightPath = 6`. -/
inductive ReferenceFrames where
  | EarthCenteredInertial
  | EarthCenteredEarthFixed
  | Geographic
  | Body
  | Wind
  | FlightPath
  deriving DecidableEq, Fintype

/-- The integer value each `ReferenceFrames` member is declared with in
`Core/State.py` (note the declaration skips 5: `FlightPath = 6`). -/
def ReferenceFrames.pyValue : ReferenceFrames → ℕ
  | .EarthCenteredInertial => 0
  | .EarthCenteredEarthFixed => 1
  | .Geographic => 2
  | .Body => 3
  | .Wind => 4
  | .FlightPath => 6

/-- The Python identifier of each `ReferenceFrames` member. -/
def ReferenceFrames.pyName : ReferenceFrames → String
  | .EarthCenteredInertial => "EarthCenteredInertial"
  | .EarthCenteredEarthFixed => "EarthCenteredEarthFixed"
  | .Geographic => "Geographic"
  | .Body => "Body"
  | .Wind => "Wind"
  | .FlightPath => "FlightPath"

/-- The members of `ReferenceFrames`, in declaration order. -/
def allReferenceFrames : List ReferenceFrames :=
  [.EarthCenteredInertial, .EarthCenteredEarthFixed, .Geographic, .Body,
   .Wind, .FlightPath]

/-- The error kinds the embedded code can raise.  `frameMismatch` stands for
the `RuntimeError` raised by `Vector.__add__`/`__sub__` on differing frames,
`unsupportedFrame` for the `RuntimeError` of the frame-resolution helpers in
`SimObjects.py`, `assertionFailed` for the `assert` in
`_velocity_to_inertial_frame`, `typeError` for a Python `TypeError`
(unsupported operand types) and `attributeError` for a Python
`AttributeError` (attribute lookup on an object lacking it). -/
inductive SimError where
  | frameMismatch
  | unsupportedFrame
  | assertionFailed
  | typeError
  | attributeError
  deriving DecidableEq

deriving instance DecidableEq for Except

/-- Three scalar components, the payload of `Vector.data`. -/
abbrev V3 (K : Type) := K × K × K

/-- Row-major 3×3 payload of `Matrix.data`. -/
abbrev M3 (K : Type) := V3 K × V3 K × V3 K

variable {K : Type} [LinearOrderedField K]

/-- Componentwise sum of two numpy 3-arrays. -/
def addV3 (a b : V3 K) : V3 K := (a.1 + b.1, a.2.1 + b.2.1, a.2.2 + b.2.2)

/-- Componentwise difference of two numpy 3-arrays. -/
def subV3 (a b : V3 K) : V3 K := (a.1 - b.1, a.2.1 - b.2.1, a.2.2 - b.2.2)

/-- Scalar multiple of a numpy 3-array. -/
def smulV3 (c : K) (a : V3 K) : V3 K := (c * a.1, c * a.2.1, c * a.2.2)

/-- Dot product of two 3-arrays. -/
def dot3 (a b : V3 K) : K := a.1 * b.1 + a.2.1 * b.2.1 + a.2.2 * b.2.2

/-- Transpose of a 3×3 array. -/
def mT (m : M3 K) : M3 K :=
  ((m.1.1, m.2.1.1, m.2.2.1),
   (m.1.2.1, m.2.1.2.1, m.2.2.2.1),
   (m.1.2.2, m.2.1.2.2, m.2.2.2.2))

/-- Matrix–vector product `m @ v` of numpy arrays. -/
def mvMul (m : M3 K) (v : V3 K) : V3 K :=
  (dot3 m.1 v, dot3 m.2.1 v, dot3 m.2.2 v)

/-- Matrix–matrix product `a @ b` of numpy arrays. -/
def mmMul (a b : M3 K) : M3 K :=
  let bt := mT b
  ((dot3 a.1 bt.1, dot3 a.1 bt.2.1, dot3 a.1 bt.2.2),
   (dot3 a.2.1 bt.1, dot3 a.2.1 bt.2.1, dot3 a.2.1 bt.2.2),
   (dot3 a.2.2 bt.1, dot3 a.2.2 bt.2.1, dot3 a.2.2 bt.2.2))

/-- Embeds the `Vector` class of `Core/State.py` (shared representation of
its `Position` and `Velocity` subclasses, whose `from_vector_data`
constructors copy exactly these three fields). -/
structure Vec (K : Type) where
  data : V3 K
  reference_frame : ReferenceFrames
  coordinate_system : CoordinateSystems
  deriving DecidableEq

/-- Embeds `Vector.__add__` (`Core/State.py` lines 63–73): raises on a
reference-frame mismatch, otherwise deep-copies the right operand `other`
and performs `rvalue.data += self.data`, so the result carries `other`'s
reference frame and coordinate system and the sum of the data. -/
def vadd (a b : Vec K) : Except SimError (Vec K) :=
  if a.reference_frame ≠ b.reference_frame then .error .frameMismatch
  else .ok { b with data := addV3 b.data a.data }

/-- Embeds `Vector.__sub__` (`Core/State.py` lines 75–85): raises on a
reference-frame mismatch, otherwise deep-copies the right operand `other`
and performs `rvalue.data -= self.data`; the computed data is therefore
`other.data - self.data`, i.e. `a - b` carries the data `b.data - a.data`. -/
def vsub (a b : Vec K) : Except SimError (Vec K) :=
  if a.reference_frame ≠ b.reference_frame then .error .frameMismatch
  else .ok { b with data := subV3 b.data a.data }

/-- Embeds the `Matrix` class of `Core/State.py` (shared representation of
its `Transformation` and `AngularVelocity` subclasses). -/
structure Mat (K : Type) where
  data : M3 K
  reference_frame_from : ReferenceFrames
  reference_frame_to : ReferenceFrames
  deriving DecidableEq

/-- Embeds the `T` property of `Transformation` (and `AngularVelocity`):
transposed data with source/target frames swapped. -/
def matT (m : Mat K) : Mat K :=
  { data := mT m.data,
    reference_frame_from := m.reference_frame_to,
    reference_frame_to := m.reference_frame_from }

/-- Embeds the `isinstance(other, Vector)` branch of
`Transformation.__matmul__` (`Core/State.py` lines 135–143): no frame check
is performed; the result deep-copies the vector (keeping its coordinate
system), replaces its data with `self.data @ other.data` and sets its
reference frame to `self.reference_frame_to`. -/
def transApplyVec (m : Mat K) (v : Vec K) : Vec K :=
  { v with data := mvMul m.data v.data, reference_frame := m.reference_frame_to }

/-- States the behaviour §4.1 of the spec ascribes to `apply(matrix,
vector)`: fail with a FrameMismatch error when the vector's frame differs
from the matrix's source frame, otherwise return the product tagged with the
target frame.  Written from the spec's words, for comparison with
`transApplyVec`, which is written from the source. -/
def transApplyVecSpec (m : Mat K) (v : Vec K) : Except SimError (Vec K) :=
  if v.reference_frame ≠ m.reference_frame_from then .error .frameMismatch
  else .ok { v with data := mvMul m.data v.data,
                    reference_frame := m.reference_frame_to }

/-- Embeds the `isinstance(other, Transformation)` branch of
`Transformation.__matmul__` (`Core/State.py` lines 145–153): no
frame-compatibility check; the result deep-copies `other`, replaces the data
with `self.data @ other.data`, takes the target frame from `self` and the
source frame from `other`. -/
def transCompose (m other : Mat K) : Mat K :=
  { data := mmMul m.data other.data,
    reference_frame_from := other.reference_frame_from,
    reference_frame_to := m.reference_frame_to }

/-- Embeds the `isinstance(other, Position)` branch of
`AngularVelocity.__matmul__` (`Core/State.py` lines 169–177): no frame
check; the result deep-copies the position, replaces its data with
`self.data @ other.data` and sets its reference frame to
`self.reference_frame_to`. -/
def angApplyVec (m : Mat K) (v : Vec K) : Vec K :=
  { v with data := mvMul m.data v.data, reference_frame := m.reference_frame_to }

/-- Abbreviation used below. -/
abbrev RF := ReferenceFrames

/-- Concrete first operand for evaluating the add/subtract round trip. -/
def c1VecA : Vec ℚ := ⟨(1, 2, 3), .EarthCenteredInertial, .Cartesian⟩

/-- Concrete second operand for evaluating the add/subtract round trip. -/
def c1VecB : Vec ℚ := ⟨(10, 20, 30), .EarthCenteredInertial, .Cartesian⟩

/-- Embeds the `Cache` class of `Utilities/Cache.py`.  The Python object
keeps a dict `_queue` plus a heap `_ordering` over the same keys; since the
heap is only ever used to pop the numerically smallest key, the pair is
modelled by the association list of the dict in insertion order. -/
structure Cache (κ α : Type) where
  max_size : Option ℕ
  entries : List (κ × α)

variable {κ α : Type} [LinearOrder κ]

/-- Keys currently stored in an association list. -/
def keysOf (l : List (κ × α)) : List κ := l.map Prod.fst

/-- Smallest element of a list of keys (what `heapq.heappop` returns, given
that the heap holds exactly the stored keys). -/
def listMin : List κ → Option κ
  | [] => none
  | x :: xs =>
    match listMin xs with
    | none => some x
    | some m => some (min x m)

/-- Removes the first entry carrying the given key (the dict deletion
`del self._queue[key]`). -/
def eraseKey (k : κ) : List (κ × α) → List (κ × α)
  | [] => []
  | e :: rest => if e.1 = k then rest else e :: eraseKey k rest

/-- Embeds `Cache.remove_oldest`: pop the numerically smallest key from the
heap and delete it from the dict.  On an empty cache the Python call would
raise; it is only ever reached with a nonempty cache, where the `none`
branch below is unreachable. -/
def removeOldest (l : List (κ × α)) : List (κ × α) :=
  match listMin (keysOf l) with
  | none => l
  | some k => eraseKey k l

/-- Auxiliary length fact used for termination of the eviction loop. -/
theorem length_eraseKey_lt {l : List (κ × α)} {k : κ} (h : k ∈ keysOf l) :
    (eraseKey k l).length < l.length := by
  induction l with
  | nil => simp [keysOf] at h
  | cons e rest ih =>
    by_cases he : e.1 = k
    · simp [eraseKey, he]
    · simp only [keysOf, List.map_cons, List.mem_cons] at h
      rcases h with h | h
      · exact absurd h.symm he
      · simpa [eraseKey, he, Nat.succ_lt_succ_iff] using ih h

/-- A list has no minimum exactly when it is empty. -/
theorem listMin_eq_none {l : List κ} : listMin l = none ↔ l = [] := by
  cases l with
  | nil => simp [listMin]
  | cons x xs =>
    rw [listMin]
    cases listMin xs <;> simp

/-- The minimum of a nonempty key list exists and is a member. -/
theorem listMin_mem {l : List κ} {m : κ} (h : listMin l = some m) : m ∈ l := by
  induction l generalizing m with
  | nil => simp [listMin] at h
  | cons x xs ih =>
    rw [listMin] at h
    cases hxs : listMin xs with
    | none => rw [hxs] at h; injection h with h; exact h ▸ List.mem_cons_self x xs
    | some m2 =>
      rw [hxs] at h
      injection h with h
      rcases min_cases x m2 with ⟨hmin, _⟩ | ⟨hmin, _⟩
      · rw [← h, hmin]; exact List.mem_cons_self x xs
      · refine List.mem_cons_of_mem x ?_
        rw [← h, hmin]; exact ih hxs

/-- The minimum of a key list bounds every member from below. -/
theorem listMin_le {l : List κ} {m : κ} (h : listMin l = some m) :
    ∀ y ∈ l, m ≤ y := by
  induction l generalizing m with
  | nil => simp
  | cons x xs ih =>
    rw [listMin] at h
    cases hxs : listMin xs with
    | none =>
      rw [hxs] at h
      injection h with h
      rcases listMin_eq_none.mp hxs with rfl
      intro y hy
      rcases List.mem_cons.mp hy with rfl | hy
      · exact le_of_eq h.symm
      · simp at hy
    | some m2 =>
      rw [hxs] at h
      injection h with h
      intro y hy
      rcases List.mem_cons.mp hy with rfl | hy
      · exact h ▸ min_le_left _ m2
      · exact le_trans (h ▸ min_le_right _ m2) (ih hxs y hy)

/-- Removing the smallest key of a nonempty list shortens it. -/
theorem length_removeOldest_lt {l : List (κ × α)} (h : l ≠ []) :
    (removeOldest l).length < l.length := by
  rw [removeOldest]
  cases hm : listMin (keysOf l) with
  | none =>
    exfalso
    have : keysOf l = [] := listMin_eq_none.mp hm
    exact h (List.map_eq_nil_iff.mp this)
  | some k => exact length_eraseKey_lt (listMin_mem hm)

/-- Fuel-indexed form of the `while` loop of `Cache._reduce_to_size`: one
fuel unit per iteration.  `remove_oldest` strictly shortens a nonempty list,
so the list's length bounds the number of loop iterations;
`reduceAux_eq` below proves the fuel never runs out, i.e. that `reduceAux`
satisfies exactly the loop's unfolding equation. -/
def reduceAuxFuel (m : ℕ) : ℕ → List (κ × α) → List (κ × α)
  | 0, l => l
  | fuel + 1, l =>
    if m < l.length then reduceAuxFuel m fuel (removeOldest l) else l

/-- Embeds the `while` loop of `Cache._reduce_to_size` for a configured
maximum `m`: repeatedly `remove_oldest` while the size exceeds `m`. -/
def reduceAux (m : ℕ) (l : List (κ × α)) : List (κ × α) :=
  reduceAuxFuel m l.length l

/-- Any sufficient fuel computes the same result as the length itself. -/
theorem reduceAuxFuel_eq_reduceAux (m : ℕ) (fuel : ℕ) (l : List (κ × α))
    (hf : l.length ≤ fuel) : reduceAuxFuel m fuel l = reduceAux m l := by
  induction fuel using Nat.strong_induction_on generalizing l with
  | _ fuel ih =>
    match fuel with
    | 0 =>
      have hl : l = [] := List.length_eq_zero.mp (Nat.le_zero.mp hf)
      subst hl
      rfl
    | fuel + 1 =>
      rw [reduceAuxFuel]
      by_cases hcond : m < l.length
      · have hlt : (removeOldest l).length < l.length :=
          length_removeOldest_lt (by rintro rfl; simp at hcond)
        rw [if_pos hcond, ih fuel (by omega) _ (by omega)]
        obtain ⟨k, hk⟩ : ∃ k, l.length = k + 1 := ⟨l.length - 1, by omega⟩
        have hR : reduceAux m l = reduceAuxFuel m k (removeOldest l) := by
          rw [reduceAux, hk, reduceAuxFuel, if_pos hcond]
        rw [hR, ih k (by omega) _ (by omega)]
      · rw [if_neg hcond, reduceAux]
        cases hl : l.length with
        | zero => rfl
        | succ k => rw [reduceAuxFuel, if_neg hcond]

/-- The while-loop unfolding equation of `Cache._reduce_to_size`. -/
theorem reduceAux_eq (m : ℕ) (l : List (κ × α)) :
    reduceAux m l = if m < l.length then reduceAux m (removeOldest l) else l := by
  rw [reduceAux]
  cases hl : l.length with
  | zero =>
    rw [if_neg (by omega)]
    rfl
  | succ k =>
    by_cases hcond : m < l.length
    · have hlt : (removeOldest l).length < l.length :=
        length_removeOldest_lt (by rintro rfl; simp at hcond)
      rw [reduceAuxFuel, if_pos hcond, if_pos (hl ▸ hcond : m < k + 1)]
      exact reduceAuxFuel_eq_reduceAux m k (removeOldest l) (by omega)
    · rw [reduceAuxFuel, if_neg hcond, if_neg (hl ▸ hcond : ¬m < k + 1)]

/-- Embeds `Cache._reduce_to_size`: a no-op when `max_size` is `None`. -/
def reduceToSize (ms : Option ℕ) (l : List (κ × α)) : List (κ × α) :=
  match ms with
  | none => l
  | some m => reduceAux m l

/-- Embeds `Cache.add` (`Utilities/Cache.py` lines 15–20): a no-op when the
key is already present, otherwise store the entry (dict insertion appends)
and run `_reduce_to_size`. -/
def Cache.add (c : Cache κ α) (k : κ) (v : α) : Cache κ α :=
  if k ∈ keysOf c.entries then c
  else { c with entries := reduceToSize c.max_size (c.entries ++ [(k, v)]) }

/-- Embeds `Cache.__init__`. -/
def Cache.empty (ms : Option ℕ) : Cache κ α := ⟨ms, []⟩

/-- Dict lookup on the association list backing the cache. -/
def lookupKey (k : κ) : List (κ × α) → Option α
  | [] => none
  | e :: rest => if e.1 = k then some e.2 else lookupKey k rest

/-- Embeds `key in cache` followed by `cache[key]` (`__contains__` and
`__getitem__`): the value stored under `k`, when present. -/
def Cache.find? (c : Cache κ α) (k : κ) : Option α :=
  lookupKey k c.entries

/-- Embeds the `EarthStateGeoid` objects of `Earth/EarthState.py`.  The
external TerraFrame collaborators are carried as fields: `any_to_tt` models
`Conversions.any_to_tt` and `gcrs_to_itrs_angular_vel` models the provider
call `self._ct.gcrs_to_itrs_angular_vel` (one call yields both raw
matrices).  Simulated time is a scalar of the same field `K`. -/
structure EarthStateGeoid (K : Type) [LinearOrderedField K] where
  any_to_tt : K → K
  gcrs_to_itrs_angular_vel : K → M3 K × M3 K
  cache : Cache K (Mat K × Mat K)

/-- Embeds `EarthStateGeoid.__init__`: a fresh instance whose cache is
`Cache(max_size=5)`. -/
def EarthStateGeoid.init (att : K → K) (prov : K → M3 K × M3 K) :
    EarthStateGeoid K :=
  ⟨att, prov, Cache.empty (some 5)⟩

/-- Embeds `EarthStateGeoid._get_transformation_and_angular_velocity`: time
is converted to TT, the cache is consulted under that key, and on a miss one
provider call produces the `(Transformation, AngularVelocity)` pair (both
tagged ECI → ECEF) which is stored as one cache entry.  The Python object
mutates `self._cache`; here the updated object is returned together with the
number of provider calls performed (0 or 1). -/
def EarthStateGeoid.getTAV (es : EarthStateGeoid K) (time : K) :
    (Mat K × Mat K) × EarthStateGeoid K × ℕ :=
  let time_tt := es.any_to_tt time
  match es.cache.find? time_tt with
  | some p => (p, es, 0)
  | none =>
    let raw := es.gcrs_to_itrs_angular_vel time_tt
    let t_ei : Mat K := ⟨raw.1, .EarthCenteredInertial, .EarthCenteredEarthFixed⟩
    let w_ei : Mat K := ⟨raw.2, .EarthCenteredInertial, .EarthCenteredEarthFixed⟩
    ((t_ei, w_ei), { es with cache := es.cache.add time_tt (t_ei, w_ei) }, 1)

/-- Embeds `EarthStateGeoid.transformation_matrix`: the first component of
the shared cached pair (with the updated object and the provider-call
count passed through). -/
def EarthStateGeoid.transformation_matrix (es : EarthStateGeoid K) (time : K) :
    Mat K × EarthStateGeoid K × ℕ :=
  let r := es.getTAV time
  (r.1.1, r.2.1, r.2.2)

/-- Embeds `EarthStateGeoid.angular_velocity`: the second component of the
shared cached pair. -/
def EarthStateGeoid.angular_velocity (es : EarthStateGeoid K) (time : K) :
    Mat K × EarthStateGeoid K × ℕ :=
  let r := es.getTAV time
  (r.1.2, r.2.1, r.2.2)

/-- The float functions of numpy/TerraFrame used by the state pipeline,
modelled as given real functions over the scalar field (`np.sqrt`,
`np.atan2`, `np.sin`, `np.cos`, `np.pi`). -/
structure NumpyFns (K : Type) where
  sqrt : K → K
  atan2 : K → K → K
  sin : K → K
  cos : K → K
  pi : K

/-- Embeds the static method `BaseObject.flight_path_angles_from_geographic`
(`SimObjects/SimObjects.py` lines 204–221) on the data `(v[0], v[1], v[2])`
of the geographic-frame velocity: `heading = atan2(v[1], v[0])`;
`denominator = sqrt(v[0]^2 + v[1]^2)`; when the denominator is positive the
flight-path angle is `atan2(-v[2], denominator)`, otherwise it is `-pi/2`
when `v[2] > 0`, `pi/2` when `v[2] < 0` and `0` when `v[2] = 0`.  Returns
`(heading_angle, flight_path_angle)`. -/
def flight_path_angles_from_geographic (np : NumpyFns K) (v : V3 K) : K × K :=
  let heading_angle := np.atan2 v.2.1 v.1
  let denominator := np.sqrt (v.1 ^ 2 + v.2.1 ^ 2)
  let flight_path_angle :=
    if 0 < denominator then np.atan2 (-v.2.2) denominator
    else if 0 < v.2.2 then -(np.pi / 2)
    else if v.2.2 < 0 then np.pi / 2
    else 0
  (heading_angle, flight_path_angle)

/-- Mathematical `atan2(y, x)` over the reals, the idealisation of
`np.atan2` (in particular `atan2 0 0 = 0`, as numpy returns `0.0`). -/
noncomputable def atan2R (y x : ℝ) : ℝ :=
  if 0 < x then Real.arctan (y / x)
  else if x < 0 then
    (if 0 ≤ y then Real.arctan (y / x) + Real.pi
     else Real.arctan (y / x) - Real.pi)
  else if 0 < y then Real.pi / 2
  else if y < 0 then -(Real.pi / 2)
  else 0

/-- The real instantiation of the numpy functions. -/
noncomputable def realNumpy : NumpyFns ℝ :=
  ⟨Real.sqrt, atan2R, Real.sin, Real.cos, Real.pi⟩

/-- The external Earth-shape provider (TerraFrame `Earth` models) as the
state pipeline consumes it: closed-form coordinate conversions.  Each takes
the three unpacked components of a vector. -/
structure EarthModel (K : Type) where
  cartesian_from_lat_lon_alt : K → K → K → V3 K
  cartesian_from_geocentric_lat_lon_radius : K → K → K → V3 K
  lat_lon_alt_from_cartesian : K → K → K → K × K × K

/-- The Earth-orientation collaborator as the pipeline consumes it
(`self.earth_transform`): value-level view of `transformation_matrix` and
`angular_velocity` at a given time (the cache inside `EarthStateGeoid` does
not change the returned values, only the call count). -/
structure EarthTransform (K : Type) where
  transformation_matrix : K → Mat K
  angular_velocity : K → Mat K

/-- Embeds the `StateFrame` aggregate as `BaseObject.new_state` populates it
(the `StateFrame` class itself in `Core/State.py` is an empty shell whose
attributes are assigned dynamically; `alt` is the attribute name actually
assigned). -/
structure StateFrame (K : Type) where
  time : K
  s_bi_i : Vec K
  v_bi_i : Vec K
  T_GE : Mat K
  T_EI : Mat K
  T_IG : Mat K
  T_VG : Mat K
  omega_ei_i : Mat K
  longitude : K
  latitude : K
  alt : K
  heading_angle : K
  flight_path_angle : K

/-- Embeds `BaseObject._vector_to_cartesian` at the level of values (the
in-place mutation of the argument object is modelled separately on a heap
below): WGS84 or Spherical data is converted through the Earth model and the
coordinate-system tag set to Cartesian; Cartesian data passes through.  The
reference frame is never touched. -/
def vector_to_cartesian (em : EarthModel K) (v : Vec K) : Vec K :=
  match v.coordinate_system with
  | .WGS84 =>
    { v with data := em.cartesian_from_lat_lon_alt v.data.1 v.data.2.1 v.data.2.2,
             coordinate_system := .Cartesian }
  | .Spherical =>
    { v with
        data := em.cartesian_from_geocentric_lat_lon_radius v.data.1 v.data.2.1 v.data.2.2,
        coordinate_system := .Cartesian }
  | .Cartesian => v

/-- Embeds `BaseObject._position_to_inertial_frame`: an Earth-fixed position
is premultiplied by the transpose of the ECI→ECEF transformation, an
inertial one passes through, and any other frame raises. -/
def position_to_inertial_frame (et : EarthTransform K) (jd : K) (p : Vec K) :
    Except SimError (Vec K) :=
  let t_ei := et.transformation_matrix jd
  if p.reference_frame = .EarthCenteredEarthFixed then
    .ok (transApplyVec (matT t_ei) p)
  else if p.reference_frame = .EarthCenteredInertial then
    .ok p
  else
    .error .unsupportedFrame

/-- Embeds `BaseObject._velocity_to_inertial_frame`: asserts the position is
already inertial; an Earth-fixed velocity gets the angular-velocity operator
applied to a frame-retagged copy of the position added to it (`velocity +
v_tmp` through `Vector.__add__`) and its frame then set to inertial by
assignment; an inertial velocity passes through; any other frame raises. -/
def velocity_to_inertial_frame (et : EarthTransform K) (jd : K)
    (v p : Vec K) : Except SimError (Vec K) :=
  if p.reference_frame ≠ .EarthCenteredInertial then .error .assertionFailed
  else
    let omega_ei_i := et.angular_velocity jd
    if v.reference_frame = .EarthCenteredEarthFixed then
      let pos_tmp := { p with reference_frame := v.reference_frame }
      let v_tmp := angApplyVec omega_ei_i pos_tmp
      match vadd v v_tmp with
      | .error e => .error e
      | .ok s => .ok { s with reference_frame := .EarthCenteredInertial }
    else if v.reference_frame = .EarthCenteredInertial then
      .ok v
    else
      .error .unsupportedFrame

/-- Embeds `BaseObject.new_state` (`SimObjects/SimObjects.py` lines 48–113),
the `construct_state` of the spec: normalise both vectors to Cartesian,
resolve them to the inertial frame, query the Earth transform, project the
position to Earth-fixed and invert to latitude/longitude/altitude, build the
local-level rotation, compose `T_IG = T_EI.T @ T_GE.T`, form the geographic
velocity `T_IG.T @ (v_bi_i - Velocity(omega_ei_i @ s_bi_i))` through the
embedded `__sub__`, derive the heading and flight-path angles, and build the
flight-path rotation.  Errors of the vector operations propagate. -/
def new_state (np : NumpyFns K) (em : EarthModel K) (et : EarthTransform K)
    (time : K) (position velocity : Vec K) : Except SimError (StateFrame K) := do
  let position := vector_to_cartesian em position
  let velocity := vector_to_cartesian em velocity
  let position ← position_to_inertial_frame et time position
  let velocity ← velocity_to_inertial_frame et time velocity position
  let T_EI := et.transformation_matrix time
  let omega_ei_i := et.angular_velocity time
  let s_bi_e := transApplyVec T_EI position
  let lla := em.lat_lon_alt_from_cartesian s_bi_e.data.1 s_bi_e.data.2.1 s_bi_e.data.2.2
  let lat := lla.1
  let lon := lla.2.1
  let alt := lla.2.2
  let T_GE : Mat K :=
    ⟨((-(np.sin lat) * np.cos lon, -(np.sin lat) * np.sin lon, np.cos lat),
      (-(np.sin lon), np.cos lon, 0),
      (-(np.cos lat) * np.cos lon, -(np.cos lat) * np.sin lon, -(np.sin lat))),
     .EarthCenteredEarthFixed, .Geographic⟩
  let T_IG := transCompose (matT T_EI) (matT T_GE)
  let v_tmp := angApplyVec omega_ei_i position
  let vrel ← vsub velocity v_tmp
  let v_bi_g := transApplyVec (matT T_IG) vrel
  let angles := flight_path_angles_from_geographic np v_bi_g.data
  let chi := angles.1
  let gamma := angles.2
  let T_VG : Mat K :=
    ⟨((np.cos gamma * np.cos chi, np.cos gamma * np.sin chi, -(np.sin gamma)),
      (-(np.sin chi), np.cos chi, 0),
      (np.sin gamma * np.cos chi, np.sin gamma * np.sin chi, np.cos gamma)),
     .Geographic, .FlightPath⟩
  return { time := time, s_bi_i := position, v_bi_i := velocity,
           T_GE := T_GE, T_EI := T_EI, T_IG := T_IG, T_VG := T_VG,
           omega_ei_i := omega_ei_i, longitude := lon, latitude := lat,
           alt := alt, heading_angle := chi, flight_path_angle := gamma }

/-- Embeds `SolverFixed.next_state` (`Core/Solvers.py` lines 33–40): calls
the injected `functions_new_state` at `dt + current_state.time` with the
current snapshot's position and velocity objects, passed through unchanged. -/
def solverFixed_next_state
    (fns : K → Vec K → Vec K → Except SimError (StateFrame K))
    (current_state : StateFrame K) (dt : K) : Except SimError (StateFrame K) :=
  fns (dt + current_state.time) current_state.s_bi_i current_state.v_bi_i

/-- A value returned by the injected acceleration function, as Python typing
allows it to arrive at `SolverVelocityVerlet.next_state`: either an instance
of the repository's frame-tagged `Vector` classes, or a raw numpy 3-array. -/
inductive PyAccel (K : Type) where
  | tagged (v : Vec K)
  | ndarray (a : V3 K)

/-- Models the Python expression `c * accel` for a float `c`: a numpy array
supports it; a `Vector` instance defines neither `__mul__` nor `__rmul__`
(`Core/State.py` defines only `__init__`, `__getitem__`, `__iter__`,
`__add__`, `__sub__` on `Vector`), so Python raises `TypeError`. -/
def scalarMulAccel (c : K) : PyAccel K → Except SimError (PyAccel K)
  | .ndarray a => .ok (.ndarray (smulV3 c a))
  | .tagged _ => .error .typeError

/-- Models the Python expression `accel * dt`: same operand analysis as
`scalarMulAccel`. -/
def accelMulScalar (d : K) : PyAccel K → Except SimError (PyAccel K)
  | .ndarray a => .ok (.ndarray (smulV3 d a))
  | .tagged _ => .error .typeError

/-- Models `vector + other` where `vector` is a `Vector` instance and
`other` is an acceleration value: `Vector.__add__` first reads
`other.reference_frame`, so a raw numpy array raises `AttributeError`; a
tagged operand goes through the embedded `__add__`. -/
def vaddPyAccel (v : Vec K) : PyAccel K → Except SimError (Vec K)
  | .tagged w => vadd v w
  | .ndarray _ => .error .attributeError

/-- Models `vec * dt` where `vec` is a `Vector` instance (the expression
`v_bi_i_half * dt` in the Verlet solver): `Vector` defines no `__mul__` and
`float` no matching `__rmul__`, so Python raises `TypeError`. -/
def vecMulScalar (_v : Vec K) (_d : K) : Except SimError (Vec K) :=
  .error .typeError

/-- Embeds `SolverVelocityVerlet.next_state` (`Core/Solvers.py` lines
82–103), following the source expression by expression:
`v_half = current.v_bi_i + 0.5 * accel * dt`;
`p1 = current.s_bi_i + v_half * dt`; an intermediate snapshot at `dt +
current.time`; a second acceleration sample; `v1 = v_half + 0.5 * accel *
dt`; the final snapshot at the same time.  Each Python binary operation is
modelled with the operand semantics above. -/
def solverVelocityVerlet_next_state
    (function_accelerations : StateFrame K → PyAccel K)
    (fns : K → Vec K → Vec K → Except SimError (StateFrame K))
    (current_state : StateFrame K) (dt : K) : Except SimError (StateFrame K) := do
  let accel_bi_i := function_accelerations current_state
  let h1 ← scalarMulAccel (1 / 2 : K) accel_bi_i
  let h2 ← accelMulScalar dt h1
  let v_bi_i_half ← vaddPyAccel current_state.v_bi_i h2
  let pd ← vecMulScalar v_bi_i_half dt
  let p_bi_i ← vadd current_state.s_bi_i pd
  let state_frame ← fns (dt + current_state.time) p_bi_i v_bi_i_half
  let accel2 := function_accelerations state_frame
  let g1 ← scalarMulAccel (1 / 2 : K) accel2
  let g2 ← accelMulScalar dt g1
  let v_bi_i ← vaddPyAccel v_bi_i_half g2
  fns (dt + current_state.time) p_bi_i v_bi_i

/-- A heap of Python `Vector` objects: references are natural numbers and
the heap maps each reference to the object's current field values.  Used to
state object-identity (in-place mutation) facts that the value-level
embedding cannot express. -/
abbrev VecHeap (K : Type) := ℕ → Vec K

/-- Embeds `BaseObject._vector_to_cartesian` at the heap level
(`SimObjects/SimObjects.py` lines 130–156): for WGS84 or Spherical data the
statements `vector.data = new_vec` and `vector.coordinate_system =
Cartesian` assign through the caller's reference, and `return vector`
returns that same reference; Cartesian data leaves the heap untouched. -/
def vector_to_cartesian_heap (em : EarthModel K) (h : VecHeap K) (r : ℕ) :
    VecHeap K × ℕ :=
  let v := h r
  match v.coordinate_system with
  | .WGS84 =>
    (Function.update h r
       { v with data := em.cartesian_from_lat_lon_alt v.data.1 v.data.2.1 v.data.2.2,
                coordinate_system := .Cartesian }, r)
  | .Spherical =>
    (Function.update h r
       { v with
           data := em.cartesian_from_geocentric_lat_lon_radius v.data.1 v.data.2.1 v.data.2.2,
           coordinate_system := .Cartesian }, r)
  | .Cartesian => (h, r)

/-- Embeds the first two statements of `BaseObject.new_state`
(`SimObjects/SimObjects.py` lines 48–51): `position =
self._vector_to_cartesian(position)` and `velocity =
self._vector_to_cartesian(velocity)`, acting on the caller's argument
objects through the heap. -/
def new_state_normalization_heap (em : EarthModel K) (h : VecHeap K)
    (rpos rvel : ℕ) : VecHeap K × ℕ × ℕ :=
  let p := vector_to_cartesian_heap em h rpos
  let v := vector_to_cartesian_heap em p.1 rvel
  (v.1, p.2, v.2)

/-- One driver iteration over the bodies (`Simulator.run`, first half of the
`while` body): every body's assigned solver computes `next_state(body.state,
time_step)` and the result is installed as that body's state.  The per-body
solver-plus-body pair is abstracted as a step function `ns` applied with the
one configured `time_step`. -/
def stepAllBodies {β : Type} (ns : β → ℚ → β) (time_step : ℚ)
    (bodies : List β) : List β :=
  bodies.map (fun b => ns b time_step)

/-- Embeds the `while True` loop of `Simulator.run` (`Simulator.py` lines
38–49) from a given elapsed simulated time: step every body, advance the
clock by `time_step`, and stop as soon as the elapsed simulated time reaches
`time_max`.  The loop terminates because the step is positive. -/
def runFrom {β : Type} (ns : β → ℚ → β) (time_step time_max : ℚ)
    (hts : 0 < time_step) (bodies : List β) (elapsed : ℚ) : List β :=
  let bodies2 := stepAllBodies ns time_step bodies
  if h : time_max ≤ elapsed + time_step then bodies2
  else runFrom ns time_step time_max hts bodies2 (elapsed + time_step)
termination_by (⌈(time_max - elapsed) / time_step⌉).toNat
decreasing_by
  have hx : (1 : ℚ) < (time_max - elapsed) / time_step :=
    (one_lt_div hts).mpr (by push_neg at h; linarith)
  have hceil : (1 : ℤ) < ⌈(time_max - elapsed) / time_step⌉ :=
    Int.lt_ceil.mpr (by exact_mod_cast hx)
  have heq : (time_max - (elapsed + time_step)) / time_step =
      (time_max - elapsed) / time_step - 1 := by
    field_simp
    ring
  rw [heq, Int.ceil_sub_one]
  omega

/-- Embeds `Simulator.run(time_max)`: the loop starts with zero elapsed
simulated time (`jd_tt_start` is a copy of the initial clock, so `jd_tt -
jd_tt_start` starts at zero). -/
def simulatorRun {β : Type} (ns : β → ℚ → β) (time_step time_max : ℚ)
    (hts : 0 < time_step) (bodies : List β) : List β :=
  runFrom ns time_step time_max hts bodies 0

/-- The number of driver iterations `run` performs: at least one, and enough
for the elapsed time to reach `time_max`. -/
def runIterations (time_step time_max : ℚ) : ℕ :=
  max 1 (⌈time_max / time_step⌉).toNat

/-- Every key surviving `eraseKey` was a key before. -/
theorem mem_keysOf_of_mem_eraseKey {l : List (κ × α)} {k y : κ}
    (h : y ∈ keysOf (eraseKey k l)) : y ∈ keysOf l := by
  induction l with
  | nil => simpa [eraseKey, keysOf] using h
  | cons e rest ih =>
    rw [eraseKey] at h
    by_cases he : e.1 = k
    · rw [if_pos he] at h
      exact List.mem_cons_of_mem _ h
    · rw [if_neg he] at h
      rcases List.mem_cons.mp h with rfl | h
      · exact List.mem_cons_self _ _
      · exact List.mem_cons_of_mem _ (ih h)

/-- A key different from the erased one survives `eraseKey`. -/
theorem mem_keysOf_eraseKey_of_ne {l : List (κ × α)} {k y : κ}
    (hy : y ∈ keysOf l) (hne : y ≠ k) : y ∈ keysOf (eraseKey k l) := by
  induction l with
  | nil => simp [keysOf] at hy
  | cons e rest ih =>
    rw [eraseKey]
    by_cases he : e.1 = k
    · rw [if_pos he]
      rcases List.mem_cons.mp hy with rfl | hy
      · exact absurd he hne
      · exact hy
    · rw [if_neg he]
      rcases List.mem_cons.mp hy with rfl | hy
      · exact List.mem_cons_self _ _
      · exact List.mem_cons_of_mem _ (ih hy)

/-- Every key surviving `remove_oldest` was a key before. -/
theorem mem_keysOf_of_mem_removeOldest {l : List (κ × α)} {y : κ}
    (h : y ∈ keysOf (removeOldest l)) : y ∈ keysOf l := by
  rw [removeOldest] at h
  cases hm : listMin (keysOf l) with
  | none => rwa [hm] at h
  | some k => rw [hm] at h; exact mem_keysOf_of_mem_eraseKey h

/-- A key that `remove_oldest` dropped is a lower bound of all keys: the
method removes exactly the numerically smallest key. -/
theorem removeOldest_dropped_is_min {l : List (κ × α)} {y : κ}
    (hy : y ∈ keysOf l) (hy2 : y ∉ keysOf (removeOldest l)) :
    ∀ x ∈ keysOf l, y ≤ x := by
  rw [removeOldest] at hy2
  cases hm : listMin (keysOf l) with
  | none => rw [hm] at hy2; exact absurd hy hy2
  | some k =>
    rw [hm] at hy2
    by_cases hyk : y = k
    · subst hyk
      exact listMin_le hm
    · exact absurd (mem_keysOf_eraseKey_of_ne hy hyk) hy2

/-- The eviction loop always ends with the size within the bound. -/
theorem reduceAux_length_le (m : ℕ) (l : List (κ × α)) :
    (reduceAux m l).length ≤ m := by
  rw [reduceAux_eq]
  by_cases hcond : m < l.length
  · rw [if_pos hcond]
    exact reduceAux_length_le m (removeOldest l)
  · rw [if_neg hcond]
    omega
termination_by l.length
decreasing_by
  exact length_removeOldest_lt (by rintro rfl; simp at hcond)

/-- Keys surviving the eviction loop were keys before it. -/
theorem mem_keysOf_reduceAux {m : ℕ} {l : List (κ × α)} {x : κ}
    (hx : x ∈ keysOf (reduceAux m l)) : x ∈ keysOf l := by
  rw [reduceAux_eq] at hx
  by_cases hcond : m < l.length
  · rw [if_pos hcond] at hx
    exact mem_keysOf_of_mem_removeOldest (mem_keysOf_reduceAux hx)
  · rwa [if_neg hcond] at hx
termination_by l.length
decreasing_by
  exact length_removeOldest_lt (by rintro rfl; simp at hcond)

/-- The eviction loop keeps an upward-closed set of keys: every evicted key
is at most every retained key. -/
theorem reduceAux_retained_ge {m : ℕ} {l : List (κ × α)} {x y : κ}
    (hx : x ∈ keysOf (reduceAux m l)) (hy : y ∈ keysOf l)
    (hy2 : y ∉ keysOf (reduceAux m l)) : y ≤ x := by
  rw [reduceAux_eq] at hx hy2
  by_cases hcond : m < l.length
  · rw [if_pos hcond] at hx hy2
    by_cases hmem : y ∈ keysOf (removeOldest l)
    · exact reduceAux_retained_ge hx hmem hy2
    · exact removeOldest_dropped_is_min hy hmem x
        (mem_keysOf_of_mem_removeOldest (mem_keysOf_reduceAux hx))
  · rw [if_neg hcond] at hx hy2
    exact absurd hy hy2
termination_by l.length
decreasing_by
  exact length_removeOldest_lt (by rintro rfl; simp at hcond)

/-- Inserting under a bound `m` always leaves at most `m` entries; starting
from the empty cache the bound is an invariant of arbitrary insertion
sequences. -/
theorem cacheFold_length_le (m : ℕ) (ops : List (κ × α)) (c : Cache κ α)
    (hms : c.max_size = some m) (hlen : c.entries.length ≤ m) :
    ((ops.foldl (fun c p => c.add p.1 p.2) c).entries.length ≤ m) := by
  induction ops generalizing c with
  | nil => simpa using hlen
  | cons p rest ih =>
    rw [List.foldl_cons]
    refine ih (c.add p.1 p.2) ?_ ?_
    · rw [Cache.add]
      split <;> simpa using hms
    · rw [Cache.add]
      split
      · exact hlen
      · simpa [hms, reduceToSize] using reduceAux_length_le m _

/-- Rotation matrix used as a concrete `Transformation` payload. -/
def idM3 : M3 ℚ := ((1, 0, 0), (0, 1, 0), (0, 0, 1))

/-- Zero 3×3 payload. -/
def zeroM3 : M3 ℚ := ((0, 0, 0), (0, 0, 0), (0, 0, 0))

/-- Concrete ECI→ECEF `Transformation` used to evaluate `__matmul__`. -/
def c3Mat : Mat ℚ := ⟨idM3, .EarthCenteredInertial, .EarthCenteredEarthFixed⟩

/-- Concrete vector tagged with a frame differing from `c3Mat`'s source. -/
def c3Vec : Vec ℚ := ⟨(1, 2, 3), .Geographic, .Cartesian⟩

/-- C1: evaluating the source `Vector.__add__`/`__sub__` at the equal-frame
pair a = (1,2,3), b = (10,20,30) (both ECI, Cartesian): `subtract(add(a, b),
b)` succeeds and returns the NEGATION of a's data, (-1,-2,-3) (tagged with
b's frame and coordinate system), not a's data — `__sub__` computes
`other.data - self.data`, so the round trip yields `b - (a + b) = -a`. -/
theorem c1_roundtrip_returns_negated_data :
    (vadd c1VecA c1VecB).bind (fun s => vsub s c1VecB) =
      .ok ⟨(-1, -2, -3), .EarthCenteredInertial, .Cartesian⟩ ∧
    ((-1, -2, -3) : V3 ℚ) ≠ c1VecA.data := by
  constructor
  · norm_num [vadd, vsub, c1VecA, c1VecB, addV3, subV3, Except.bind]
  · norm_num [c1VecA, Prod.ext_iff]

/-- C3 (counterexample): applying the concrete ECI→ECEF transformation to a
Geographic-frame vector raises nothing: `Transformation.__matmul__` performs
no frame check and returns the product tagged with the target frame, whereas
the spec-worded apply (`transApplyVecSpec`) fails with FrameMismatch on the
same input. -/
theorem c3_mismatched_apply_returns_product :
    c3Vec.reference_frame ≠ c3Mat.reference_frame_from ∧
    transApplyVec c3Mat c3Vec = ⟨(1, 2, 3), .EarthCenteredEarthFixed, .Cartesian⟩ ∧
    transApplyVecSpec c3Mat c3Vec = .error .frameMismatch := by
  refine ⟨by decide, ?_, ?_⟩
  · norm_num [transApplyVec, c3Mat, c3Vec, idM3, mvMul, dot3]
  · rw [transApplyVecSpec,
      if_pos (by decide : c3Vec.reference_frame ≠ c3Mat.reference_frame_from)]

/-- C3 (amended): for every Transformation matrix and every vector —
regardless of the vector's reference frame — `matrix @ vector` returns the
matrix–vector product tagged with the matrix's target frame (keeping the
vector's coordinate system); no FrameMismatch error is ever raised.  When
the vector's frame does equal the matrix's source frame, this agrees with
the checked apply the spec describes. -/
theorem c3_apply_never_frame_checks (m : Mat K) (v : Vec K) :
    transApplyVec m v =
      ⟨mvMul m.data v.data, m.reference_frame_to, v.coordinate_system⟩ ∧
    (v.reference_frame = m.reference_frame_from →
      transApplyVecSpec m v = .ok (transApplyVec m v)) := by
  refine ⟨rfl, fun h => ?_⟩
  simp [transApplyVecSpec, transApplyVec, h]

/-- C3 (witness for the amended theorem): concrete matched-frame instance. -/
theorem c3_apply_witness :
    transApplyVec c3Mat ⟨(1, 2, 3), .EarthCenteredInertial, .Cartesian⟩ =
      ⟨mvMul c3Mat.data (1, 2, 3), c3Mat.reference_frame_to, .Cartesian⟩ ∧
    transApplyVecSpec c3Mat ⟨(1, 2, 3), .EarthCenteredInertial, .Cartesian⟩ =
      .ok (transApplyVec c3Mat ⟨(1, 2, 3), .EarthCenteredInertial, .Cartesian⟩) :=
  ⟨(c3_apply_never_frame_checks c3Mat ⟨(1, 2, 3), .EarthCenteredInertial, .Cartesian⟩).1,
   (c3_apply_never_frame_checks c3Mat ⟨(1, 2, 3), .EarthCenteredInertial, .Cartesian⟩).2 rfl⟩

/-- C9 (counterexample): no member of the `ReferenceFrames` enumeration is
named `Unknown`: the enumeration carries no Unknown sentinel. -/
theorem c9_no_unknown_member :
    "Unknown" ∉ (Finset.univ : Finset ReferenceFrames).image ReferenceFrames.pyName := by
  decide

/-- C9 (amended): `ReferenceFrames` is a closed enumeration whose members
are exactly EarthCenteredInertial, EarthCenteredEarthFixed, Geographic,
Body, Wind and FlightPath (declared with values 0, 1, 2, 3, 4, 6 — no
member carries value 5 and there is no Unknown sentinel). -/
theorem c9_reference_frames_members :
    allReferenceFrames.map ReferenceFrames.pyName =
      ["EarthCenteredInertial", "EarthCenteredEarthFixed", "Geographic",
       "Body", "Wind", "FlightPath"] ∧
    allReferenceFrames.map ReferenceFrames.pyValue = [0, 1, 2, 3, 4, 6] ∧
    allReferenceFrames.Nodup ∧
    (∀ m : ReferenceFrames, m ∈ allReferenceFrames) := by
  decide

/-- C2 (counterexample): for the geographic velocity (0, 0, 5) — zero
horizontal components, positive third component — the source derivation
returns flight-path angle `-pi/2`, which differs from the `+90°` the claim
asserts. -/
theorem c2_straight_down_is_minus_ninety :
    (flight_path_angles_from_geographic realNumpy ((0 : ℝ), 0, 5)).2 =
      -(Real.pi / 2) ∧
    -(Real.pi / 2) ≠ (Real.pi / 2 : ℝ) := by
  constructor
  · have hs : Real.sqrt ((0 : ℝ) ^ 2 + 0 ^ 2) = 0 := by
      norm_num [Real.sqrt_zero]
    simp [flight_path_angles_from_geographic, realNumpy, hs]
  · intro h
    have := Real.pi_pos
    linarith

/-- C2 (amended): with zero horizontal components the pipeline's
flight-path-angle derivation yields `-90°` (radian `-pi/2`) for velocity
(0,0,5), `+90°` for (0,0,-5) and `0°` for (0,0,0) — the signs opposite to
the claim — and the heading angle is `atan2(0,0) = 0` in each case. -/
theorem c2_flight_path_degenerate_values :
    flight_path_angles_from_geographic realNumpy ((0 : ℝ), 0, 5) =
      (0, -(Real.pi / 2)) ∧
    flight_path_angles_from_geographic realNumpy ((0 : ℝ), 0, -5) =
      (0, Real.pi / 2) ∧
    flight_path_angles_from_geographic realNumpy ((0 : ℝ), 0, 0) = (0, 0) := by
  have hs : Real.sqrt ((0 : ℝ) ^ 2 + 0 ^ 2) = 0 := by
    norm_num [Real.sqrt_zero]
  have hh : atan2R 0 0 = 0 := by simp [atan2R]
  refine ⟨?_, ?_, ?_⟩ <;>
    simp [flight_path_angles_from_geographic, realNumpy, hs, hh, Prod.ext_iff]

/-- Keys of a concatenation. -/
theorem keysOf_append (l1 l2 : List (κ × α)) :
    keysOf (l1 ++ l2) = keysOf l1 ++ keysOf l2 :=
  List.map_append _ _ _

/-- Concrete insertion run for the Bounded Key Cache: keys 1,2,3,4,5,6
(values 0) into an empty cache with `max_size = 5`. -/
def c4Example : Cache ℕ ℕ :=
  (([1, 2, 3, 4, 5, 6] : List ℕ).map (fun k => (k, 0))).foldl
    (fun c p => c.add p.1 p.2) (Cache.empty (some 5))

/-- Concrete two-entry cache with `max_size = 2` used by the C4 witness. -/
def c4Small : Cache ℕ ℕ := ((Cache.empty (some 2) : Cache ℕ ℕ).add 1 7).add 2 8

/-- C4: for the Bounded Key Cache, (i) any sequence of insertions into an
empty cache with configured `max_size = m` leaves at most `m` entries, (ii)
inserting a key already present is a no-op, (iii) whenever an insertion
evicts, every evicted key is numerically at most every retained key (the
smallest keys are evicted), and (iv) inserting keys 1..6 into an empty cache
with `max_size = 5` leaves exactly the keys 2,3,4,5,6. -/
theorem c4_cache_bounded_smallest_eviction :
    (∀ (κ α : Type) [LinearOrder κ] (m : ℕ) (ops : List (κ × α)),
      ((ops.foldl (fun c p => c.add p.1 p.2)
          (Cache.empty (some m) : Cache κ α)).entries.length ≤ m)) ∧
    (∀ (κ α : Type) [LinearOrder κ] (c : Cache κ α) (k : κ) (v : α),
      k ∈ keysOf c.entries → c.add k v = c) ∧
    (∀ (κ α : Type) [LinearOrder κ] (m : ℕ) (c : Cache κ α) (k : κ) (v : α)
      (x y : κ), c.max_size = some m →
      x ∈ keysOf (c.add k v).entries →
      (y ∈ keysOf c.entries ∨ y = k) →
      y ∉ keysOf (c.add k v).entries → y ≤ x) ∧
    keysOf c4Example.entries = [2, 3, 4, 5, 6] := by
  refine ⟨?_, ?_, ?_, by decide⟩
  · intro κ α _ m ops
    exact cacheFold_length_le m ops _ rfl (by simp [Cache.empty])
  · intro κ α _ c k v hk
    rw [Cache.add, if_pos hk]
  · intro κ α _ m c k v x y hms hx hy hy2
    rw [Cache.add] at hx hy2
    by_cases hmem : k ∈ keysOf c.entries
    · rw [if_pos hmem] at hx hy2
      rcases hy with hy | rfl
      · exact absurd hy hy2
      · exact absurd hmem hy2
    · rw [if_neg hmem, hms] at hx hy2
      have hy3 : y ∈ keysOf (c.entries ++ [(k, v)]) := by
        rw [keysOf_append]
        rcases hy with hy | rfl
        · exact List.mem_append_left _ hy
        · exact List.mem_append_right _ (by simp [keysOf])
      exact reduceAux_retained_ge hx hy3 hy2

/-- C4 (witness): the duplicate-insert no-op and the smallest-evicted
ordering at concrete inputs, through the claim's theorem. -/
theorem c4_cache_witness : (c4Small.add 1 9 = c4Small) ∧ (1 : ℕ) ≤ 3 :=
  ⟨c4_cache_bounded_smallest_eviction.2.1 ℕ ℕ c4Small 1 9 (by decide),
   c4_cache_bounded_smallest_eviction.2.2.1 ℕ ℕ 2 c4Small 3 9 3 1 rfl
     (by decide) (Or.inl (by decide)) (by decide)⟩

/-- C5: the Velocity-Verlet solver cannot perform even one step: whatever
the acceleration function returns, the first statements of `next_state`
raise.  If it returns a frame-tagged `Vector` instance, `0.5 * accel` is a
`TypeError` (the class defines no scalar multiplication); if it returns a
raw numpy 3-array, `current.v_bi_i + 0.5 * accel * dt` is an
`AttributeError` (`Vector.__add__` reads `other.reference_frame`).  In
particular no zero-acceleration straight-line motion is ever produced. -/
theorem c5_verlet_raises_before_integrating
    (accelFn : StateFrame K → PyAccel K)
    (fns : K → Vec K → Vec K → Except SimError (StateFrame K))
    (cur : StateFrame K) (dt : K) :
    solverVelocityVerlet_next_state accelFn fns cur dt =
      .error (match accelFn cur with
              | .tagged _ => .typeError
              | .ndarray _ => .attributeError) := by
  cases h : accelFn cur with
  | tagged v =>
    simp [solverVelocityVerlet_next_state, h, scalarMulAccel, Bind.bind,
      Except.bind]
  | ndarray a =>
    simp [solverVelocityVerlet_next_state, h, scalarMulAccel, accelMulScalar,
      vaddPyAccel, Bind.bind, Except.bind]

/-- The coordinate normalisation never changes the reference frame. -/
theorem vector_to_cartesian_frame (em : EarthModel K) (v : Vec K) :
    (vector_to_cartesian em v).reference_frame = v.reference_frame := by
  cases h : v.coordinate_system <;> simp [vector_to_cartesian, h]

/-- The state pipeline `new_state` raises a frame mismatch on every input it
can resolve to the inertial frame: the term `omega_ei_i @ s_bi_i` is tagged
with the angular-velocity operator's target frame (Earth-fixed, as both
Earth-state variants construct it), and `v_bi_i - Velocity(omega_ei_i @
s_bi_i)` then compares Earth-fixed against the inertial velocity inside
`Vector.__sub__`. -/
theorem new_state_frame_mismatch (np : NumpyFns K) (em : EarthModel K)
    (et : EarthTransform K) (time : K) (position velocity : Vec K)
    (hw : (et.angular_velocity time).reference_frame_to =
      .EarthCenteredEarthFixed)
    (ht : (et.transformation_matrix time).reference_frame_from =
      .EarthCenteredInertial)
    (hp : position.reference_frame = .EarthCenteredInertial ∨
      position.reference_frame = .EarthCenteredEarthFixed)
    (hv : velocity.reference_frame = .EarthCenteredInertial ∨
      velocity.reference_frame = .EarthCenteredEarthFixed) :
    new_state np em et time position velocity = .error .frameMismatch := by
  have hp1 : (vector_to_cartesian em position).reference_frame =
      position.reference_frame := vector_to_cartesian_frame em position
  have hv1 : (vector_to_cartesian em velocity).reference_frame =
      velocity.reference_frame := vector_to_cartesian_frame em velocity
  obtain ⟨p2, hpos, hp2⟩ : ∃ p2 : Vec K,
      position_to_inertial_frame et time (vector_to_cartesian em position) =
        .ok p2 ∧ p2.reference_frame = .EarthCenteredInertial := by
    rcases hp with h | h
    · refine ⟨vector_to_cartesian em position, ?_, hp1.trans h⟩
      rw [position_to_inertial_frame, if_neg (by rw [hp1, h]; decide),
        if_pos (by rw [hp1, h])]
    · refine ⟨transApplyVec (matT (et.transformation_matrix time))
        (vector_to_cartesian em position), ?_, ?_⟩
      · rw [position_to_inertial_frame, if_pos (by rw [hp1, h])]
      · simp [transApplyVec, matT, ht]
  obtain ⟨v2, hvel, hv2⟩ : ∃ v2 : Vec K,
      velocity_to_inertial_frame et time (vector_to_cartesian em velocity) p2 =
        .ok v2 ∧ v2.reference_frame = .EarthCenteredInertial := by
    rcases hv with h | h
    · refine ⟨vector_to_cartesian em velocity, ?_, hv1.trans h⟩
      rw [velocity_to_inertial_frame, if_neg (by rw [hp2]; decide),
        if_neg (by rw [hv1, h]; decide), if_pos (by rw [hv1, h])]
    · have hadd : vadd (vector_to_cartesian em velocity)
          (angApplyVec (et.angular_velocity time)
            { p2 with reference_frame := (vector_to_cartesian em velocity).reference_frame }) =
          .ok { p2 with
                  reference_frame := (et.angular_velocity time).reference_frame_to,
                  data := addV3 (mvMul (et.angular_velocity time).data p2.data)
                    (vector_to_cartesian em velocity).data } := by
        rw [vadd, if_neg (by simp [angApplyVec, hv1, h, hw])]
        simp [angApplyVec]
      refine ⟨{ p2 with
          reference_frame := .EarthCenteredInertial,
          data := addV3 (mvMul (et.angular_velocity time).data p2.data)
            (vector_to_cartesian em velocity).data }, ?_, rfl⟩
      rw [velocity_to_inertial_frame, if_neg (by rw [hp2]; decide),
        if_pos (by rw [hv1, h])]
      simp [hadd]
  have hsub : ∀ w : Vec K,
      w.reference_frame = (et.angular_velocity time).reference_frame_to →
      vsub v2 w = .error .frameMismatch := by
    intro w hwf
    rw [vsub, if_pos]
    rw [hv2, hwf, hw]
    decide
  have hw2 : (angApplyVec (et.angular_velocity time) p2).reference_frame =
      (et.angular_velocity time).reference_frame_to := rfl
  simp only [new_state, hpos, hvel, Bind.bind, Except.bind]
  rw [hsub _ hw2]

/-- Concrete numpy functions over ℚ used by the C6 witness. -/
def c6Np : NumpyFns ℚ := ⟨id, fun _ _ => 0, fun _ => 0, fun _ => 1, 3⟩

/-- Concrete Earth model over ℚ used by the C6 witness. -/
def c6Em : EarthModel ℚ :=
  ⟨fun a b c => (a, b, c), fun a b c => (a, b, c), fun a b c => (a, b, c)⟩

/-- Concrete ECI→ECEF matrix pair used by the C6 witness. -/
def zeroMatQ : Mat ℚ := ⟨zeroM3, .EarthCenteredInertial, .EarthCenteredEarthFixed⟩

/-- Concrete Earth transform over ℚ used by the C6 witness. -/
def c6Et : EarthTransform ℚ :=
  ⟨fun _ => ⟨idM3, .EarthCenteredInertial, .EarthCenteredEarthFixed⟩,
   fun _ => zeroMatQ⟩

/-- Concrete current snapshot used by the C6 witness. -/
def c6State : StateFrame ℚ :=
  { time := 0,
    s_bi_i := ⟨(7000000, 0, 0), .EarthCenteredInertial, .Cartesian⟩,
    v_bi_i := ⟨(0, 0, 0), .EarthCenteredInertial, .Cartesian⟩,
    T_GE := zeroMatQ, T_EI := zeroMatQ, T_IG := zeroMatQ, T_VG := zeroMatQ,
    omega_ei_i := zeroMatQ, longitude := 0, latitude := 0, alt := 0,
    heading_angle := 0, flight_path_angle := 0 }

/-- C6: the Fixed solver passes `dt + current.time` and the current
position/velocity objects to `construct_state`, but `construct_state`
(`new_state`) never returns a snapshot: it raises a frame mismatch at the
geographic-velocity step for every resolvable input, so `next_state`
produces no snapshot at all (in particular none with unchanged position and
velocity data). -/
theorem c6_fixed_solver_pipeline_raises (np : NumpyFns K) (em : EarthModel K)
    (et : EarthTransform K) (cur : StateFrame K) (dt : K)
    (hw : (et.angular_velocity (dt + cur.time)).reference_frame_to =
      .EarthCenteredEarthFixed)
    (ht : (et.transformation_matrix (dt + cur.time)).reference_frame_from =
      .EarthCenteredInertial)
    (hp : cur.s_bi_i.reference_frame = .EarthCenteredInertial ∨
      cur.s_bi_i.reference_frame = .EarthCenteredEarthFixed)
    (hv : cur.v_bi_i.reference_frame = .EarthCenteredInertial ∨
      cur.v_bi_i.reference_frame = .EarthCenteredEarthFixed) :
    solverFixed_next_state (new_state np em et) cur dt =
      .error .frameMismatch :=
  new_state_frame_mismatch np em et (dt + cur.time) cur.s_bi_i cur.v_bi_i
    hw ht hp hv

/-- C6 (witness): the concrete fixed-ground-point style snapshot, stepped by
the Fixed solver wired to `new_state`, raises the frame mismatch. -/
theorem c6_fixed_solver_witness :
    solverFixed_next_state (new_state c6Np c6Em c6Et) c6State 1 =
      .error .frameMismatch :=
  c6_fixed_solver_pipeline_raises c6Np c6Em c6Et c6State 1 rfl rfl
    (Or.inl rfl) (Or.inl rfl)

/-- Dict lookup misses exactly the absent keys. -/
theorem lookupKey_eq_none_iff {l : List (κ × α)} {k : κ} :
    lookupKey k l = none ↔ k ∉ keysOf l := by
  induction l with
  | nil => simp [lookupKey, keysOf]
  | cons e rest ih =>
    rw [lookupKey]
    by_cases he : e.1 = k
    · simp [he, keysOf]
    · simp [he, keysOf, ih, Ne.symm he]

/-- Appending a fresh entry makes its key found. -/
theorem lookupKey_append_fresh {l : List (κ × α)} {k : κ} (v : α)
    (h : lookupKey k l = none) : lookupKey k (l ++ [(k, v)]) = some v := by
  induction l with
  | nil => simp [lookupKey]
  | cons e rest ih =>
    rw [lookupKey] at h
    by_cases he : e.1 = k
    · rw [if_pos he] at h
      exact absurd h (by simp)
    · rw [if_neg he] at h
      rw [List.cons_append, lookupKey, if_neg he]
      exact ih h

/-- Erasing one entry of a different key does not change a lookup. -/
theorem lookupKey_eraseKey_ne {l : List (κ × α)} {k m : κ} (h : m ≠ k) :
    lookupKey k (eraseKey m l) = lookupKey k l := by
  induction l with
  | nil => simp [eraseKey]
  | cons e rest ih =>
    rw [eraseKey]
    by_cases he : e.1 = m
    · rw [if_pos he, lookupKey, if_neg (by rw [he]; exact h)]
    · rw [if_neg he, lookupKey, lookupKey]
      by_cases hk : e.1 = k
      · rw [if_pos hk, if_pos hk]
      · rw [if_neg hk, if_neg hk, ih]

/-- Erasing a present key shortens the list by exactly one entry. -/
theorem length_eraseKey_of_mem {l : List (κ × α)} {k : κ}
    (h : k ∈ keysOf l) : (eraseKey k l).length + 1 = l.length := by
  induction l with
  | nil => simp [keysOf] at h
  | cons e rest ih =>
    rw [eraseKey]
    by_cases he : e.1 = k
    · rw [if_pos he]
      simp
    · rw [if_neg he]
      rcases List.mem_cons.mp h with h1 | h1
      · exact absurd h1.symm he
      · simp only [List.length_cons]
        rw [← ih h1]

/-- A fresh insertion whose key is retained (the cache is not full, or some
smaller key absorbs the eviction) is found afterwards. -/
theorem cacheAdd_find_of_retained {m : ℕ} {c : Cache κ α} {k : κ} (v : α)
    (hms : c.max_size = some m) (hlen : c.entries.length ≤ m)
    (hfresh : c.find? k = none)
    (hcond : c.entries.length < m ∨ ∃ k0 ∈ keysOf c.entries, k0 < k) :
    (c.add k v).find? k = some v := by
  have hmem : k ∉ keysOf c.entries := lookupKey_eq_none_iff.mp hfresh
  rw [Cache.add, if_neg hmem]
  show lookupKey k (reduceToSize c.max_size (c.entries ++ [(k, v)])) = some v
  rw [hms]
  show lookupKey k (reduceAux m (c.entries ++ [(k, v)])) = some v
  rcases hcond with hlt | ⟨k0, hk0, hk0lt⟩
  · rw [reduceAux_eq, if_neg (by simp; omega)]
    exact lookupKey_append_fresh v hfresh
  · by_cases hfull : c.entries.length < m
    · rw [reduceAux_eq, if_neg (by simp; omega)]
      exact lookupKey_append_fresh v hfresh
    · have hexact : c.entries.length = m := by omega
      have hk0mem : k0 ∈ keysOf (c.entries ++ [(k, v)]) := by
        rw [keysOf_append]
        exact List.mem_append_left _ hk0
      obtain ⟨kmin, hkmin⟩ : ∃ kmin,
          listMin (keysOf (c.entries ++ [(k, v)])) = some kmin := by
        cases hm2 : listMin (keysOf (c.entries ++ [(k, v)])) with
        | none => exact absurd (listMin_eq_none.mp hm2 ▸ hk0mem) (by simp)
        | some kmin => exact ⟨kmin, rfl⟩
      have hminmem := listMin_mem hkmin
      have hminle := listMin_le hkmin k0 hk0mem
      have hminne : kmin ≠ k := by
        intro heq
        rw [heq] at hminle
        exact absurd (lt_of_le_of_lt hminle hk0lt) (lt_irrefl k)
      rw [reduceAux_eq, if_pos (by simp; omega)]
      have hro : removeOldest (c.entries ++ [(k, v)]) =
          eraseKey kmin (c.entries ++ [(k, v)]) := by
        rw [removeOldest, hkmin]
      rw [hro]
      have hlen2 : (eraseKey kmin (c.entries ++ [(k, v)])).length + 1 =
          (c.entries ++ [(k, v)]).length := length_eraseKey_of_mem hminmem
      rw [reduceAux_eq, if_neg (by simp at hlen2 ⊢; omega)]
      rw [lookupKey_eraseKey_ne hminne]
      exact lookupKey_append_fresh v hfresh

/-- Concrete provider for the Geoid Earth-Orientation examples: every call
returns the same raw matrix pair. -/
def c7Prov : ℚ → M3 ℚ × M3 ℚ := fun _ => (zeroM3, zeroM3)

/-- Fresh Geoid Earth-Orientation instance over ℚ (TT conversion is the
identity). -/
def c7State0 : EarthStateGeoid ℚ := EarthStateGeoid.init id c7Prov

/-- The instance after one query at each of the increasing times
10, 20, 30, 40, 50: its bounded cache is full. -/
def c7StateFull : EarthStateGeoid ℚ :=
  ([10, 20, 30, 40, 50] : List ℚ).foldl
    (fun es t => (es.transformation_matrix t).2.1) c7State0

/-- The instance after one further query at the earlier time 5. -/
def c7StateRepeat : EarthStateGeoid ℚ := (c7StateFull.transformation_matrix 5).2.1

/-- C7 (counterexample): with the cache already holding the five larger keys
10..50, a query at time 5 costs a provider call, and — because the insertion
of key 5 is immediately evicted as the smallest key — the REPEATED query at
the identical time 5 costs another provider call: repeated queries at an
identical time are not always free. -/
theorem c7_requery_can_reinvoke_provider :
    (c7StateFull.transformation_matrix 5).2.2 = 1 ∧
    (c7StateRepeat.transformation_matrix 5).2.2 = 1 := by
  decide

/-- C7 (amended): for the Geoid variant, (i) `transformation_matrix` and
`angular_velocity` return the first resp. second component of the one shared
`getTAV` result, (ii) a fresh instance carries an empty bounded cache of
capacity 5, (iii) on a cache miss exactly one provider call happens and the
resulting (Transformation, AngularVelocity) pair — both tagged ECI→ECEF and
built from that single call — is inserted together as one entry under the
TT-converted time key, (iv) on a hit no provider call happens and the cached
pair is returned unchanged, and (v) a repeated query at an identical time
costs no further provider call and returns the identical pair, PROVIDED the
first query's entry was retained — the cache was not already full of larger
keys (it always holds at most 5 entries; retention needs a free slot, a
smaller cached key, or an initial hit). -/
theorem c7_geoid_pair_cached_together :
    (∀ (es : EarthStateGeoid K) (t : K),
      es.transformation_matrix t =
        ((es.getTAV t).1.1, (es.getTAV t).2.1, (es.getTAV t).2.2) ∧
      es.angular_velocity t =
        ((es.getTAV t).1.2, (es.getTAV t).2.1, (es.getTAV t).2.2)) ∧
    (∀ (att : K → K) (prov : K → M3 K × M3 K),
      (EarthStateGeoid.init att prov).cache.max_size = some 5 ∧
      (EarthStateGeoid.init att prov).cache.entries = []) ∧
    (∀ (es : EarthStateGeoid K) (t : K),
      es.cache.find? (es.any_to_tt t) = none →
      (es.getTAV t).2.2 = 1 ∧
      (es.getTAV t).1 =
        (⟨(es.gcrs_to_itrs_angular_vel (es.any_to_tt t)).1,
           .EarthCenteredInertial, .EarthCenteredEarthFixed⟩,
         ⟨(es.gcrs_to_itrs_angular_vel (es.any_to_tt t)).2,
           .EarthCenteredInertial, .EarthCenteredEarthFixed⟩) ∧
      (es.getTAV t).2.1.cache =
        es.cache.add (es.any_to_tt t) (es.getTAV t).1 ∧
      (es.getTAV t).2.1.any_to_tt = es.any_to_tt ∧
      (es.getTAV t).2.1.gcrs_to_itrs_angular_vel =
        es.gcrs_to_itrs_angular_vel) ∧
    (∀ (es : EarthStateGeoid K) (t : K) (p : Mat K × Mat K),
      es.cache.find? (es.any_to_tt t) = some p → es.getTAV t = (p, es, 0)) ∧
    (∀ (es : EarthStateGeoid K) (t : K),
      es.cache.max_size = some 5 → es.cache.entries.length ≤ 5 →
      (es.cache.entries.length < 5 ∨
        (∃ k0 ∈ keysOf es.cache.entries, k0 < es.any_to_tt t) ∨
        (es.cache.find? (es.any_to_tt t)).isSome = true) →
      (es.getTAV t).2.1.getTAV t =
        ((es.getTAV t).1, (es.getTAV t).2.1, 0)) := by
  refine ⟨fun es t => ⟨rfl, rfl⟩, fun att prov => ⟨rfl, rfl⟩, ?_, ?_, ?_⟩
  · intro es t h
    refine ⟨?_, ?_, ?_, ?_, ?_⟩ <;> simp [EarthStateGeoid.getTAV, h]
  · intro es t p h
    simp [EarthStateGeoid.getTAV, h]
  · intro es t hms hlen hcond
    cases hfind : es.cache.find? (es.any_to_tt t) with
    | some p =>
      simp [EarthStateGeoid.getTAV, hfind]
    | none =>
      have hret : ∃ pr, ((es.getTAV t).2.1).cache.find? (es.any_to_tt t) =
          some pr ∧ pr = (es.getTAV t).1 := by
        refine ⟨(es.getTAV t).1, ?_, rfl⟩
        have h1 : (es.getTAV t).2.1.cache =
            es.cache.add (es.any_to_tt t) (es.getTAV t).1 := by
          simp [EarthStateGeoid.getTAV, hfind]
        rw [h1]
        refine cacheAdd_find_of_retained _ hms hlen hfind ?_
        rcases hcond with h | h | h
        · exact Or.inl h
        · exact Or.inr h
        · rw [hfind] at h
          simp at h
      obtain ⟨pr, hfind2, hpr⟩ := hret
      have hatt : (es.getTAV t).2.1.any_to_tt = es.any_to_tt := by
        simp [EarthStateGeoid.getTAV, hfind]
      rw [EarthStateGeoid.getTAV]
      rw [hatt, hfind2, hpr]

/-- C7 (witness for the amended theorem): on the fresh instance a first
query at time 3 inserts the pair, and the repeated query at 3 costs no
provider call and returns it unchanged. -/
theorem c7_geoid_witness :
    (c7State0.getTAV 3).2.1.getTAV 3 =
      ((c7State0.getTAV 3).1, (c7State0.getTAV 3).2.1, 0) :=
  (c7_geoid_pair_cached_together (K := ℚ)).2.2.2.2 c7State0 3 rfl (by decide)
    (Or.inl (by decide))

/-- The driver loop from elapsed time `elapsed` performs
`max 1 ⌈(time_max - elapsed) / time_step⌉` whole-body iterations. -/
theorem runFrom_eq_iterate {β : Type} (ns : β → ℚ → β) (ts tmax : ℚ)
    (hts : 0 < ts) (bodies : List β) (elapsed : ℚ) :
    runFrom ns ts tmax hts bodies elapsed =
      (stepAllBodies ns ts)^[max 1 (⌈(tmax - elapsed) / ts⌉).toNat] bodies := by
  rw [runFrom]
  by_cases h : tmax ≤ elapsed + ts
  · rw [dif_pos h]
    have hle : (tmax - elapsed) / ts ≤ 1 := by
      rw [div_le_one hts]
      linarith
    have hceil : ⌈(tmax - elapsed) / ts⌉ ≤ 1 :=
      Int.ceil_le.mpr (by exact_mod_cast hle)
    have hN : max 1 (⌈(tmax - elapsed) / ts⌉).toNat = 1 := by omega
    rw [hN]
    rfl
  · rw [dif_neg h,
      runFrom_eq_iterate ns ts tmax hts (stepAllBodies ns ts bodies) (elapsed + ts)]
    have hx : (1 : ℚ) < (tmax - elapsed) / ts :=
      (one_lt_div hts).mpr (by push_neg at h; linarith)
    have hceil : (1 : ℤ) < ⌈(tmax - elapsed) / ts⌉ :=
      Int.lt_ceil.mpr (by exact_mod_cast hx)
    have heq : (tmax - (elapsed + ts)) / ts = (tmax - elapsed) / ts - 1 := by
      field_simp
      ring
    rw [heq, Int.ceil_sub_one]
    have h1 : max 1 (⌈(tmax - elapsed) / ts⌉ - 1).toNat =
        (⌈(tmax - elapsed) / ts⌉ - 1).toNat := by omega
    have h2 : max 1 (⌈(tmax - elapsed) / ts⌉).toNat =
        (⌈(tmax - elapsed) / ts⌉).toNat := by omega
    have h3 : (⌈(tmax - elapsed) / ts⌉).toNat =
        (⌈(tmax - elapsed) / ts⌉ - 1).toNat + 1 := by omega
    rw [h1, h2, h3, Function.iterate_succ_apply]
termination_by (⌈(tmax - elapsed) / ts⌉).toNat
decreasing_by
  have hx : (1 : ℚ) < (tmax - elapsed) / ts :=
    (one_lt_div hts).mpr (by push_neg at h; linarith)
  have hceil : (1 : ℤ) < ⌈(tmax - elapsed) / ts⌉ :=
    Int.lt_ceil.mpr (by exact_mod_cast hx)
  have heq : (tmax - (elapsed + ts)) / ts = (tmax - elapsed) / ts - 1 := by
    field_simp
    ring
  rw [heq, Int.ceil_sub_one]
  omega

/-- C8: `run(time_max)` with a positive `time_step` performs exactly
`runIterations` driver iterations — each mapping every body through its
solver's `next_state` at the one configured `time_step` and advancing the
clock — and `runIterations` is the least positive number of steps whose
elapsed simulated time `n · time_step` reaches `time_max`: the loop
terminates exactly when the elapsed simulated time reaches `time_max` (the
termination test runs after each iteration, so at least one iteration always
happens). -/
theorem c8_run_steps_and_terminates {β : Type} (ns : β → ℚ → β)
    (ts tmax : ℚ) (hts : 0 < ts) (bodies : List β) :
    simulatorRun ns ts tmax hts bodies =
      (stepAllBodies ns ts)^[runIterations ts tmax] bodies ∧
    1 ≤ runIterations ts tmax ∧
    tmax ≤ (runIterations ts tmax : ℚ) * ts ∧
    (∀ j : ℕ, 1 ≤ j → tmax ≤ (j : ℚ) * ts → runIterations ts tmax ≤ j) := by
  refine ⟨?_, ?_, ?_, ?_⟩
  · rw [simulatorRun, runFrom_eq_iterate, runIterations, sub_zero]
  · exact le_max_left 1 _
  · rw [runIterations]
    rcases le_or_lt tmax 0 with h0 | h0
    · have h1 : (1 : ℚ) ≤ ((max 1 (⌈tmax / ts⌉).toNat : ℕ) : ℚ) := by
        exact_mod_cast le_max_left 1 (⌈tmax / ts⌉).toNat
      nlinarith
    · have hpos : (1 : ℤ) ≤ ⌈tmax / ts⌉ := Int.ceil_pos.mpr (div_pos h0 hts)
      have hdiv : tmax / ts ≤ ((⌈tmax / ts⌉).toNat : ℚ) := by
        calc tmax / ts ≤ (⌈tmax / ts⌉ : ℚ) := Int.le_ceil _
          _ = ((⌈tmax / ts⌉).toNat : ℚ) := by
              exact_mod_cast congrArg (fun z : ℤ => (z : ℚ))
                (Int.toNat_of_nonneg (by omega : (0 : ℤ) ≤ ⌈tmax / ts⌉)).symm
      have hle : ((⌈tmax / ts⌉).toNat : ℚ) ≤
          ((max 1 (⌈tmax / ts⌉).toNat : ℕ) : ℚ) := by
        exact_mod_cast le_max_right 1 (⌈tmax / ts⌉).toNat
      calc tmax = (tmax / ts) * ts := by field_simp
        _ ≤ ((max 1 (⌈tmax / ts⌉).toNat : ℕ) : ℚ) * ts := by
            apply mul_le_mul_of_nonneg_right (by linarith) (le_of_lt hts)
  · intro j hj hjts
    have hdj : tmax / ts ≤ (j : ℚ) := by
      rw [div_le_iff hts]
      linarith
    have hcj : ⌈tmax / ts⌉ ≤ (j : ℤ) := Int.ceil_le.mpr (by exact_mod_cast hdj)
    rw [runIterations]
    omega

/-- C8 (witness): a one-body run with `time_step = 1` and `time_max = 5/2`
performs exactly three iterations. -/
theorem c8_run_witness :
    simulatorRun (fun b _ => b + 1) 1 (5 / 2) one_pos [(0 : ℕ)] = [3] := by
  rw [(c8_run_steps_and_terminates (fun b _ => b + 1) 1 (5 / 2) one_pos
    [(0 : ℕ)]).1]
  have hc : ⌈(5 / 2 : ℚ) / 1⌉ = 3 := by norm_num [Int.ceil_eq_iff]
  have hN : runIterations 1 (5 / 2) = 3 := by
    rw [runIterations, hc]
    decide
  rw [hN]
  decide

/-- The heap-level coordinate normalisation always hands back the caller's
reference. -/
theorem vector_to_cartesian_heap_ref (em : EarthModel K) (h : VecHeap K)
    (r : ℕ) : (vector_to_cartesian_heap em h r).2 = r := by
  cases hc : (h r).coordinate_system <;> simp [vector_to_cartesian_heap, hc]

/-- C10: `_vector_to_cartesian` mutates the caller's vector object in place
— for WGS84 (Geodetic) or Spherical data the heap cell behind the caller's
reference is overwritten with the Cartesian conversion and the
coordinate-system tag set to Cartesian, the reference frame untouched, and
the same reference is returned (Cartesian data is left alone); consequently
the first two statements of `new_state` (`construct_state`) modify the
position argument they are given: after them the caller's object differs
from what was passed in. -/
theorem c10_normalization_mutates_arguments (em : EarthModel K)
    (h : VecHeap K) (r rpos rvel : ℕ) :
    ((h r).coordinate_system = .WGS84 →
      vector_to_cartesian_heap em h r =
        (Function.update h r
          { h r with
              data := em.cartesian_from_lat_lon_alt (h r).data.1 (h r).data.2.1
                (h r).data.2.2,
              coordinate_system := .Cartesian }, r)) ∧
    ((h r).coordinate_system = .Spherical →
      vector_to_cartesian_heap em h r =
        (Function.update h r
          { h r with
              data := em.cartesian_from_geocentric_lat_lon_radius (h r).data.1
                (h r).data.2.1 (h r).data.2.2,
              coordinate_system := .Cartesian }, r)) ∧
    ((h r).coordinate_system = .Cartesian →
      vector_to_cartesian_heap em h r = (h, r)) ∧
    ((h rpos).coordinate_system ≠ .Cartesian → rvel ≠ rpos →
      (new_state_normalization_heap em h rpos rvel).2.1 = rpos ∧
      ((new_state_normalization_heap em h rpos rvel).1 rpos).coordinate_system =
        .Cartesian ∧
      (new_state_normalization_heap em h rpos rvel).1 rpos ≠ h rpos) := by
  refine ⟨fun hc => by simp [vector_to_cartesian_heap, hc],
    fun hc => by simp [vector_to_cartesian_heap, hc],
    fun hc => by simp [vector_to_cartesian_heap, hc], ?_⟩
  intro hnc hne
  have hafter : ∀ h2 : VecHeap K,
      (vector_to_cartesian_heap em h2 rvel).1 rpos = h2 rpos := by
    intro h2
    cases hc : (h2 rvel).coordinate_system <;>
      simp [vector_to_cartesian_heap, hc, Function.update_noteq hne.symm]
  have hfirst : (vector_to_cartesian_heap em h rpos).1 rpos =
      { h rpos with
          data := (vector_to_cartesian_heap em h rpos).1 rpos |>.data,
          coordinate_system := .Cartesian } := by
    cases hc : (h rpos).coordinate_system
    · exact absurd hc hnc
    · simp [vector_to_cartesian_heap, hc, Function.update_same]
    · simp [vector_to_cartesian_heap, hc, Function.update_same]
  refine ⟨?_, ?_, ?_⟩
  · show (vector_to_cartesian_heap em h rpos).2 = rpos
    exact vector_to_cartesian_heap_ref em h rpos
  · show ((vector_to_cartesian_heap em
        (vector_to_cartesian_heap em h rpos).1 rvel).1 rpos).coordinate_system =
      .Cartesian
    rw [hafter, hfirst]
  · show (vector_to_cartesian_heap em
        (vector_to_cartesian_heap em h rpos).1 rvel).1 rpos ≠ h rpos
    rw [hafter]
    intro heq
    apply hnc
    rw [← heq, hfirst]

/-- Concrete Earth model over ℚ for the C10 witness. -/
def c10Em : EarthModel ℚ :=
  ⟨fun _ _ _ => (1, 2, 3), fun _ _ _ => (4, 5, 6), fun a b c => (a, b, c)⟩

/-- Concrete heap for the C10 witness: every reference holds a geodetic
(WGS84) vector. -/
def c10Heap : VecHeap ℚ := fun _ => ⟨(10, 20, 30), .Geographic, .WGS84⟩

/-- C10 (witness): normalising the arguments of `new_state` through the
heap at references 0 (position) and 1 (velocity) hands back reference 0 and
leaves the caller's position object overwritten with Cartesian data. -/
theorem c10_normalization_witness :
    (new_state_normalization_heap c10Em c10Heap 0 1).2.1 = 0 ∧
    ((new_state_normalization_heap c10Em c10Heap 0 1).1 0).coordinate_system =
      .Cartesian ∧
    (new_state_normalization_heap c10Em c10Heap 0 1).1 0 ≠ c10Heap 0 :=
  (c10_normalization_mutates_arguments c10Em c10Heap 0 0 1).2.2.2
    (by decide) (by decide)

end Tensaero
